import Mathlib

/-!
Shallow embedding of the findig micro-framework: the content-negotiation
registries (ErrorHandler / Formatter / Parser from findig/content.py),
data-model composition (findig/data_model.py), resource method dispatch
(findig/resource.py), the request-context lifecycle (findig/__init__.py)
and the lazy data-set views (findig/tools/dataset.py), together with
theorems settling claims C1 to C10 about them.

Python dicts are modelled as insertion-ordered association lists with
unique keys (CPython 3.7+ semantics); handler functions are modelled by
numeric identifiers, so equality of identifiers models object identity.
-/

namespace Findig

/-- A Python dict: an insertion-ordered association list. Registration
order is list order; dicts built by `dictSet`/`dictUpdate` have unique
keys. -/
abbrev PyDict (κ ν : Type) := List (κ × ν)

/-- Keys of a dict, in insertion order. -/
def dictKeys {κ ν : Type} (d : PyDict κ ν) : List κ := d.map Prod.fst

/-- Python `d[k]` as an Option: the value stored for a key, if any. -/
def dictLookup {κ ν : Type} [DecidableEq κ] : PyDict κ ν → κ → Option ν
  | [], _ => none
  | (k', v) :: rest, k => if k' = k then some v else dictLookup rest k

/-- Python `d[k] = v`: overwrite in place when the key exists (keys are
unique, so replacing the first occurrence is replacing the occurrence),
else append at the end. -/
def dictSet {κ ν : Type} [DecidableEq κ] : PyDict κ ν → κ → ν → PyDict κ ν
  | [], k, v => [(k, v)]
  | (k', w) :: rest, k, v =>
    if k' = k then (k, v) :: rest else (k', w) :: dictSet rest k v

/-- Python `d.update(e)`: set every entry of `e` on `d`, in `e`'s iteration
order. -/
def dictUpdate {κ ν : Type} [DecidableEq κ] (d e : PyDict κ ν) : PyDict κ ν :=
  e.foldl (fun acc p => dictSet acc p.1 p.2) d

/-- Python `d.setdefault(k, v)`. -/
def dictSetdefault {κ ν : Type} [DecidableEq κ] (d : PyDict κ ν) (k : κ) (v : ν) : PyDict κ ν :=
  match dictLookup d k with
  | some _ => d
  | none => dictSet d k v

/-- AbstractDataModel.compose (data_model.py, Mapping branch): the result is
`dict(other)` updated with self's entries, so operations of `self` override
same-named operations of `other`. Handler functions are numeric identifiers. -/
def AbstractDataModel.compose (self other : PyDict String Nat) : PyDict String Nat :=
  dictUpdate other self

/-- An error value: its Python type together with an identity tag, so that
re-raising the error object unchanged is observable in the model. -/
structure PyError (Ty : Type) where
  ty : Ty
  ident : Nat
deriving DecidableEq, Repr

/-- The scan inside ErrorHandler.choose_best_handler (content.py): fold over
the registered exception types in registration order, replacing the current
best type whenever the scanned type applies to the error (the error's type
is a subclass of it) and is itself a subclass of the current best. The scan
starts from BaseException (the `base` argument); `sub a b` models Python's
issubclass(a, b). -/
def chooseBestTy {Ty : Type} (sub : Ty → Ty → Bool) (base errTy : Ty) (keys : List Ty) : Ty :=
  keys.foldl (fun best h => if sub errTy h && sub h best then h else best) base

/-- ErrorHandler.choose_best_handler (content.py): run the scan over the
registered types; if the resulting type is registered, return its handler,
otherwise re-raise the error. -/
def ErrorHandler.chooseBestHandler {Ty : Type} [DecidableEq Ty] (sub : Ty → Ty → Bool)
    (base : Ty) (err : PyError Ty) (handlers : PyDict Ty Nat) : Except (PyError Ty) Nat :=
  match dictLookup handlers (chooseBestTy sub base err.ty (dictKeys handlers)) with
  | some h => .ok h
  | none => .error err

/-- Claim C1's selection rule, stated from the spec's words: a registered
type is applicable when it is an ancestor-or-self of the error's type; the
narrowest (minimal) applicable registered type wins, with ties broken by
registration order (first registered among the minimal ones); with no
applicable type the error is re-raised. -/
def specNarrowestFirst {Ty : Type} [DecidableEq Ty] (sub : Ty → Ty → Bool)
    (err : PyError Ty) (handlers : PyDict Ty Nat) : Except (PyError Ty) Nat :=
  let keys := dictKeys handlers
  let applicable := keys.filter (fun k => sub err.ty k)
  let minimals := applicable.filter
    (fun k => applicable.all (fun j => !sub j k || decide (j = k)))
  match minimals.head? with
  | some k =>
    match dictLookup handlers k with
    | some h => .ok h
    | none => .error err
  | none => .error err

/-- Exception-type universe for the C1 counterexample: 0 is BaseException,
1 is a broad type Z, 2 and 3 are incomparable types M1 and M2 with M2 a
subclass of Z, and 4 is a leaf type deriving from both M1 and M2. -/
def sub5 : Fin 5 → Fin 5 → Bool := fun a b =>
  decide (a = b) || decide (b = 0) ||
    decide ((a, b) ∈ ([(3, 1), (4, 1), (4, 2), (4, 3)] : List (Fin 5 × Fin 5)))

/-- Exception-type universe Base (1) → Mid (2) → Leaf (3) below
BaseException (0), for the C1 witness. -/
def subBM : Fin 4 → Fin 4 → Bool := fun a b =>
  decide (a = b) || decide (b = 0) ||
    decide ((a, b) ∈ ([(2, 1), (3, 1), (3, 2)] : List (Fin 4 × Fin 4)))

/-- Registry with handlers on Base (type 1, handler 21) and Mid (type 2,
handler 22) only. -/
def bmHandlers : PyDict (Fin 4) Nat := [(1, 21), (2, 22)]

/-- Content-negotiation failure outcomes of findig/content.py, plus the
Python exceptions its lookups can surface. -/
inductive NegErr : Type
  | notAcceptable
  | unsupportedMediaType
  | keyError
  | valueError
  | attributeError (attr : String)
deriving DecidableEq, Repr

/-- Parser.choose_best_handler (content.py): an exact dict match on the
parsed Content-Type media type wins; otherwise the designated default
handler is used; with no match and no default, UnsupportedMediaType is
raised. The chosen handler is returned partially applied to the parsed
header options. -/
def Parser.chooseBestHandler (handlers : PyDict String Nat) (dflt : Option String)
    (contentType : String) (options : PyDict String String) :
    Except NegErr (Nat × PyDict String String) :=
  match dictLookup handlers contentType with
  | some h => .ok (h, options)
  | none =>
    match dflt with
    | some d =>
      match dictLookup handlers d with
      | some h => .ok (h, options)
      | none => .error .keyError
    | none => .error .unsupportedMediaType

/-- A media range or media type, already split at its slash. Registered
formatter keys are validated by ContentPipe.register (content.py) to
contain exactly one slash; parsed Accept entries are type/subtype tokens,
a bare * normalizing to the full wildcard. -/
structure Mime where
  ty : String
  subty : String
deriving DecidableEq, Repr

/-- The full wildcard media range. -/
def Mime.star : Mime := ⟨"*", "*"⟩

/-- Modelled from the spec: the header-matching rule of the external
Accept-header collaborator (werkzeug MIMEAccept, not under src/). A client
range matches a registered media type when either side is the full
wildcard, or the types agree and either subtype is a wildcard or the
subtypes agree; a wildcard type with a concrete subtype matches nothing. -/
def valueMatches (value item : Mime) : Bool :=
  if value.ty == "*" && value.subty != "*" then false
  else if item.ty == "*" && item.subty != "*" then false
  else (item.ty == "*" && item.subty == "*") || (value.ty == "*" && value.subty == "*")
    || (item.ty == value.ty && (item.subty == "*" || value.subty == "*"
        || item.subty == value.subty))

/-- Modelled from the spec: the best weight among the client ranges
matching a registered media type, counting only positive weights (a range
offered with weight zero is explicitly refused). Weights are modelled in
thousandths. -/
def matchQuality (ranges : List (Mime × Nat)) (server : Mime) : Nat :=
  ranges.foldl
    (fun best c => if valueMatches server c.1 && decide (best < c.2) then c.2 else best) 0

/-- Modelled from the spec: the best-match selection of the external
Accept-header collaborator (werkzeug Accept.best_match): scan the
registered media types in registration order and keep the first one whose
match quality strictly exceeds every earlier one; none when nothing
matches with a positive weight. -/
def bestMatch (ranges : List (Mime × Nat)) (serverItems : List Mime) : Option Mime :=
  (serverItems.foldl
    (fun st s => if st.1 < matchQuality ranges s then (matchQuality ranges s, some s) else st)
    ((0 : Nat), (none : Option Mime))).2

/-- The attribute names defined on the request object bound to ctx.request
(findig.wrappers.Request, a werkzeug Request subclass that adds only the
input property): headers, method, data and the like — no get method. -/
def requestAttrs : List String :=
  ["environ", "headers", "method", "args", "form", "values", "data", "input",
   "max_content_length"]

/-- Python attribute resolution on the request object: a missing attribute
raises AttributeError. -/
def requestGetAttr (attr : String) : Except NegErr Unit :=
  if attr ∈ requestAttrs then .ok () else .error (.attributeError attr)

/-- Formatter.choose_best_handler (content.py lines 104-156): the first
statement, `accept_header = ctx.request.get("Accept")` (line 110), looks
the attribute get up on the request object, which defines no such method,
so AttributeError is raised before any negotiation. The remaining lines —
reached only if that lookup succeeded — use the designated default handler,
else the first registered one (ValueError on an empty registry), when the
header is absent, and with a header take the best match among the
registered types, raising NotAcceptable when there is none; the header is
modelled by its parsed weighted ranges. -/
def Formatter.chooseBestHandler (handlers : PyDict Mime Nat) (dflt : Option Mime)
    (accept : Option (List (Mime × Nat))) : Except NegErr (Mime × Nat) :=
  match requestGetAttr "get" with
  | .error e => .error e
  | .ok _ =>
    match accept with
    | none =>
      match dflt with
      | some d =>
        match dictLookup handlers d with
        | some h => .ok (d, h)
        | none => .error .keyError
      | none =>
        match handlers with
        | [] => .error .valueError
        | h :: _ => .ok h
    | some ranges =>
      match bestMatch ranges (dictKeys handlers) with
      | some m =>
        match dictLookup handlers m with
        | some h => .ok (m, h)
        | none => .error .keyError
      | none => .error .notAcceptable

/-- Resource.get_supported_methods (resource.py): GET always; DELETE
exactly when the model has a delete operation; PUT exactly when it has
write. The Python set is modelled as a list read up to membership. -/
def Resource.getSupportedMethods (modelKeys : List String) : List String :=
  "GET" :: ((if "delete" ∈ modelKeys then ["DELETE"] else []) ++
    (if "write" ∈ modelKeys then ["PUT"] else []))

/-- Collection.get_supported_methods (resource.py): the resource set plus
POST exactly when the model has a make operation. -/
def Collection.getSupportedMethods (modelKeys : List String) : List String :=
  Resource.getSupportedMethods modelKeys ++
    (if "make" ∈ modelKeys then ["POST"] else [])

/-- A handler extracted for a request: the model function wrapped by
functools.partial, with the parsed request input bound for PUT/POST. -/
structure BoundHandler where
  func : Nat
  arg : Option Nat
deriving DecidableEq, Repr

/-- Failure outcomes of the _extract_handler methods (resource.py). -/
inductive ExtractErr
  | methodNotAllowed (allowed : List String)
  | keyError (key : String)
  | valueError
deriving DecidableEq, Repr

/-- The body of Resource._extract_handler (resource.py lines 213-229):
raise MethodNotAllowed listing the supported set for a non-HEAD method
outside it, then dispatch GET/HEAD to read, DELETE to delete and PUT to
write (bound to the request input); a missing model entry surfaces as the
dict's KeyError. The supported set comes from the dynamically dispatched
get_supported_methods, so it is a parameter here. -/
def Resource.extractCore (supported : List String) (method : String)
    (model : PyDict String Nat) (input : Nat) : Except ExtractErr BoundHandler :=
  if method ∉ supported ∧ method ≠ "HEAD" then .error (.methodNotAllowed supported)
  else if method = "GET" ∨ method = "HEAD" then
    match dictLookup model "read" with
    | some f => .ok ⟨f, none⟩
    | none => .error (.keyError "read")
  else if method = "DELETE" then
    match dictLookup model "delete" with
    | some f => .ok ⟨f, none⟩
    | none => .error (.keyError "delete")
  else if method = "PUT" then
    match dictLookup model "write" with
    | some f => .ok ⟨f, some input⟩
    | none => .error (.keyError "write")
  else .error .valueError

/-- Resource._extract_handler on a plain Resource. -/
def Resource.extractHandler (method : String) (model : PyDict String Nat) (input : Nat) :
    Except ExtractErr BoundHandler :=
  Resource.extractCore (Resource.getSupportedMethods (dictKeys model)) method model input

/-- Collection._extract_handler (resource.py lines 307-311): POST is
answered with the model's make operation before any method check; every
other method falls through to the resource body, with Collection's
supported set. -/
def Collection.extractHandler (method : String) (model : PyDict String Nat) (input : Nat) :
    Except ExtractErr BoundHandler :=
  if method = "POST" then
    match dictLookup model "make" with
    | some f => .ok ⟨f, some input⟩
    | none => .error (.keyError "make")
  else
    Resource.extractCore (Collection.getSupportedMethods (dictKeys model)) method model input

/-- Python exceptions surfaced by the collection POST post-processing. -/
inductive PyExc
  | nameError (name : String)
deriving DecidableEq, Repr

/-- The response-state dict that dispatch initialises (dispatcher.py line
237: ctx.response starts with empty headers and no status). -/
structure RespState where
  status : Option Nat
  headers : PyDict String String
deriving DecidableEq, Repr

/-- Python `response.setdefault("status", v)`. -/
def RespState.setdefaultStatus (r : RespState) (v : Nat) : RespState :=
  match r.status with
  | some _ => r
  | none => ⟨some v, r.headers⟩

/-- Collection._try_build_item_url (resource.py lines 342-353): rename the
record's fields along the bindargs map and ask the external URL builder; a
URLBuildError (modelled by the builder returning none) is swallowed, and
only a successful build returns a URL. -/
def Collection.tryBuildItemUrl (build : PyDict String Nat → Option String)
    (bindArgs : PyDict String String) (data : PyDict String Nat) : Option String :=
  build (data.map (fun p => ((dictLookup bindArgs p.1).getD p.1, p.2)))

/-- The local names of Collection.handle_request that are bound to mapping
values once the super() call has returned (resource.py line 314): only
`ret` holds the make result. The name `data` read on line 319 is never
assigned in this scope. -/
def collectionPostLocals (ret : PyDict String Nat) : PyDict String (PyDict String Nat) :=
  [("ret", ret)]

/-- Python name resolution in that scope: reading an unbound local name
raises NameError. -/
def lookupLocal (scope : PyDict String (PyDict String Nat)) (n : String) :
    Except PyExc (PyDict String Nat) :=
  match dictLookup scope n with
  | some v => .ok v
  | none => .error (.nameError n)

/-- The POST path of Collection.handle_request (resource.py lines 313-321):
after the make handler returns, set the response status to 201, then
evaluate `self._try_build_item_url(data)` — which resolves the name `data`
— and set a Location header from its result, finally returning the make
result. -/
def Collection.handleRequestPost (build : PyDict String Nat → Option String)
    (bindArgs : PyDict String String) (ret : PyDict String Nat) (resp : RespState) :
    RespState × Except PyExc (PyDict String Nat) :=
  let resp1 := resp.setdefaultStatus 201
  match lookupLocal (collectionPostLocals ret) "data" with
  | .error e => (resp1, .error e)
  | .ok d =>
    match Collection.tryBuildItemUrl build bindArgs d with
    | some u => (⟨resp1.status, dictSetdefault resp1.headers "Location" u⟩, .ok ret)
    | none => (resp1, .ok ret)

/-- A Python object stored in a data model: callable or not, with an
identity. -/
inductive PyVal
  | callable (ident : Nat)
  | plain (ident : Nat)
deriving DecidableEq, Repr

/-- Python isinstance(v, Callable). -/
def PyVal.isCallable : PyVal → Bool
  | .callable _ => true
  | .plain _ => false

/-- The closed operation set DataModel.all_actions (data_model.py). -/
def allActions : List String := ["read", "write", "delete", "make"]

/-- A DataModel instance: the four attribute slots that __setitem__'s
setattr can create for data operations. -/
structure DataModel where
  read : Option PyVal
  write : Option PyVal
  delete : Option PyVal
  make : Option PyVal
deriving DecidableEq, Repr

/-- A freshly constructed DataModel() with no operations set. -/
def DataModel.empty : DataModel := ⟨none, none, none, none⟩

/-- Python getattr(self, action, None) restricted to the action slots. -/
def DataModel.getAttr (m : DataModel) : String → Option PyVal
  | "read" => m.read
  | "write" => m.write
  | "delete" => m.delete
  | "make" => m.make
  | _ => none

/-- Python setattr(self, action, func) on an action slot. -/
def DataModel.setAttr (m : DataModel) (a : String) (v : PyVal) : DataModel :=
  if a = "read" then ⟨some v, m.write, m.delete, m.make⟩
  else if a = "write" then ⟨m.read, some v, m.delete, m.make⟩
  else if a = "delete" then ⟨m.read, m.write, some v, m.make⟩
  else if a = "make" then ⟨m.read, m.write, m.delete, some v⟩
  else m

/-- Errors raised by DataModel.__setitem__ (data_model.py lines 130-138). -/
inductive DMErr
  | valueError
  | typeError
deriving DecidableEq, Repr

/-- DataModel.__setitem__ (data_model.py): an action outside all_actions
raises ValueError and a non-callable value raises TypeError, both before
any mutation; otherwise the attribute is set. The post-state is returned
next to the outcome, so the raising cases expose the unchanged instance. -/
def DataModel.setItem (m : DataModel) (action : String) (func : PyVal) :
    DataModel × Option DMErr :=
  if action ∉ allActions then (m, some .valueError)
  else if ¬ func.isCallable then (m, some .typeError)
  else (m.setAttr action func, none)

/-- One entry of AbstractDataModel.__get_impl_actions (data_model.py lines
82-86): the (action, function) pair for an action whose attribute exists
and is callable. -/
def DataModel.implAction (m : DataModel) (a : String) : Option (String × PyVal) :=
  (m.getAttr a).bind (fun f => if f.isCallable then some (a, f) else none)

/-- AbstractDataModel.__get_impl_actions: the mapping from each action in
all_actions to the callable attribute implementing it, skipping absent or
non-callable attributes. -/
def DataModel.implActions (m : DataModel) : PyDict String PyVal :=
  allActions.filterMap m.implAction

/-- AbstractDataModel.__getitem__ through __get_impl_actions. -/
def DataModel.getItem (m : DataModel) (k : String) : Option PyVal :=
  dictLookup (m.implActions) k

/-- A request context manager registered with App.context: whether the
code before its yield succeeds, and the value it yields (published on ctx
under the hook's name), if any. -/
structure CtxHook where
  name : String
  setupOk : Bool
  yields : Option Nat
deriving DecidableEq, Repr

/-- The observable request-scope state: the readable ctx values and how
many times each registered cleanup hook has run. -/
structure ScopeState where
  ctxVars : PyDict String Nat
  cleanupRuns : List Nat
deriving DecidableEq, Repr

/-- The ctx values App.build_context assigns before entering the context
hooks (findig/__init__.py lines 122-132). -/
def baseCtxVars : PyDict String Nat :=
  [("app", 0), ("url_adapter", 0), ("request", 0), ("url_values", 0),
   ("dispatcher", 0), ("resource", 0)]

/-- Entering the context hooks in registration order (build_context, lines
140-143): a hook whose setup succeeds publishes its yielded value on ctx; a
hook whose setup raises aborts immediately — the exception propagates out
of build_context before the with-statement begins, so nothing already
pushed on the ExitStack is unwound. Returns the resulting state and
whether every setup ran. -/
def enterHooks : List CtxHook → ScopeState → ScopeState × Bool
  | [], st => (st, true)
  | hk :: rest, st =>
    if hk.setupOk then
      enterHooks rest
        ⟨match hk.yields with
         | some v => dictSet st.ctxVars hk.name v
         | none => st.ctxVars, st.cleanupRuns⟩
    else (st, false)

/-- App.__cleanup (findig/__init__.py lines 100-106): release every ctx
value through the local manager, then run each registered cleanup hook
once (their own exceptions are swallowed). -/
def appCleanup (st : ScopeState) : ScopeState :=
  ⟨[], st.cleanupRuns.map (fun c => c + 1)⟩

/-- One request scope through App.__call__ (findig/__init__.py lines
190-203): build the context (base ctx values, then the hooks); if every
setup succeeded, the with-statement runs the body — whether the body
returns or raises, the with-statement exits the ExitStack, which runs
__cleanup; if some setup raised, build_context itself raises, the
with-statement never starts, and no teardown runs. -/
def App.runScope (hooks : List CtxHook) (numCleanups : Nat) (bodyRaises : Bool) : ScopeState :=
  match enterHooks hooks ⟨baseCtxVars, List.replicate numCleanups 0⟩ with
  | (st1, true) =>
    match bodyRaises with
    | true => appCleanup st1
    | false => appCleanup st1
  | (st1, false) => st1

/-- A record: a mapping of field names to values; record.get yields none
for a missing field (Python None). -/
abbrev Record := PyDict String Int

/-- One filter-spec argument (tools/dataset.py): a callable predicate
applied to the field value, or a plain value compared for equality. -/
inductive FilterArg
  | pred (p : Option Int → Bool)
  | value (v : Option Int)

/-- A filter specification: keyword name to argument. -/
abbrev FilterSpec := PyDict String FilterArg

/-- FilteredDataSet.check_match (tools/dataset.py lines 273-294): every
spec entry must hold — a callable entry as a predicate on
record.get(field), any other entry by equality with record.get(field). -/
def checkMatch (record : Record) (spec : FilterSpec) : Bool :=
  spec.all (fun fe =>
    match fe.2 with
    | .pred p => p (dictLookup record fe.1)
    | .value v => decide (dictLookup record fe.1 = v))

/-- A computation threaded through a counter of backend-iterator requests:
constructing views must leave the counter unchanged, iterating them must
not. -/
abbrev Counting (α : Type) := Nat → α × Nat

/-- Requesting the wrapped backend's iterator: the one operation that
performs backend I/O. -/
def backendIter (ds : List Record) : Counting (List Record) := fun n => (ds, n + 1)

/-- FilteredDataSet (tools/dataset.py lines 258-260): __init__ merely
stores the wrapped data set and the filter spec. -/
structure FilteredDataSet where
  ds : List Record
  fs : FilterSpec

/-- AbstractDataSet.filtered (tools/dataset.py line 76): construct the
filtered view; the backend is not touched. -/
def AbstractDataSet.filtered (ds : List Record) (spec : FilterSpec) :
    Counting FilteredDataSet :=
  fun n => (⟨ds, spec⟩, n)

/-- DataSetSlice (tools/dataset.py lines 310-314): stored bounds only. -/
structure DataSetSlice where
  ds : List Record
  start : Nat
  stop : Nat

/-- AbstractDataSet.limit (tools/dataset.py line 86): construct
DataSetSlice(self, offset, offset+count); the backend is not touched. -/
def AbstractDataSet.limit (ds : List Record) (count offset : Nat) : Counting DataSetSlice :=
  fun n => (⟨ds, offset, offset + count⟩, n)

/-- OrderedDataSet (tools/dataset.py lines 332-335): stored sort spec
only. -/
structure OrderedDataSet where
  ds : List Record
  ss : List String
  rv : Bool

/-- AbstractDataSet.sorted (tools/dataset.py line 104): construct the
ordered view; the backend is not touched. -/
def AbstractDataSet.sortedView (ds : List Record) (ss : List String) (rv : Bool) :
    Counting OrderedDataSet :=
  fun n => (⟨ds, ss, rv⟩, n)

/-- FilteredDataSet.__iter__ (tools/dataset.py lines 262-265): pull the
backend's iterator once and yield exactly the records passing
check_match. -/
def FilteredDataSet.iter (v : FilteredDataSet) : Counting (List Record) := fun n =>
  ((backendIter v.ds n).1.filter (fun r => checkMatch r v.fs), (backendIter v.ds n).2)

/-- DataSetSlice.__iter__ (tools/dataset.py lines 316-317): islice over
the backend's iterator. -/
def DataSetSlice.iter (v : DataSetSlice) : Counting (List Record) := fun n =>
  (((backendIter v.ds n).1.drop v.start).take (v.stop - v.start), (backendIter v.ds n).2)

theorem mem_dictKeys_cons {κ ν : Type} (p : κ × ν) (rest : PyDict κ ν) (k : κ) :
    k ∈ dictKeys (p :: rest) ↔ k = p.1 ∨ k ∈ dictKeys rest := by
  simp [dictKeys]

theorem dictLookup_eq_none {κ ν : Type} [DecidableEq κ] {d : PyDict κ ν} {k : κ}
    (h : k ∉ dictKeys d) : dictLookup d k = none := by
  induction d with
  | nil => rfl
  | cons p rest ih =>
    obtain ⟨k', v⟩ := p
    rw [mem_dictKeys_cons] at h
    push_neg at h
    simp only [dictLookup, if_neg (Ne.symm h.1)]
    exact ih h.2

theorem mem_dictKeys_of_lookup {κ ν : Type} [DecidableEq κ] {d : PyDict κ ν} {k : κ} {v : ν}
    (h : dictLookup d k = some v) : k ∈ dictKeys d := by
  induction d with
  | nil => simp [dictLookup] at h
  | cons p rest ih =>
    obtain ⟨k', w⟩ := p
    simp only [dictLookup] at h
    rw [mem_dictKeys_cons]
    by_cases hk : k' = k
    · exact Or.inl hk.symm
    · simp only [if_neg hk] at h
      exact Or.inr (ih h)

theorem dictLookup_isSome_of_mem {κ ν : Type} [DecidableEq κ] {d : PyDict κ ν} {k : κ}
    (h : k ∈ dictKeys d) : (dictLookup d k).isSome = true := by
  induction d with
  | nil => simp [dictKeys] at h
  | cons p rest ih =>
    obtain ⟨k', v⟩ := p
    rw [mem_dictKeys_cons] at h
    by_cases hk : k' = k
    · simp [dictLookup, hk]
    · rcases h with h | h
      · exact absurd h.symm hk
      · simp only [dictLookup, if_neg hk]
        exact ih h

theorem dictLookup_dictSet_self {κ ν : Type} [DecidableEq κ] (d : PyDict κ ν) (k : κ) (v : ν) :
    dictLookup (dictSet d k v) k = some v := by
  induction d with
  | nil => simp [dictSet, dictLookup]
  | cons p rest ih =>
    obtain ⟨k', w⟩ := p
    by_cases hk : k' = k
    · simp [dictSet, hk, dictLookup]
    · simp only [dictSet, if_neg hk, dictLookup, if_neg hk]
      exact ih

theorem dictLookup_dictSet_ne {κ ν : Type} [DecidableEq κ] (d : PyDict κ ν) {k j : κ} (v : ν)
    (hne : j ≠ k) : dictLookup (dictSet d k v) j = dictLookup d j := by
  induction d with
  | nil => simp [dictSet, dictLookup, if_neg (Ne.symm hne)]
  | cons p rest ih =>
    obtain ⟨k₀, w⟩ := p
    by_cases h₀ : k₀ = k
    · simp only [dictSet, if_pos h₀, dictLookup, h₀, if_neg (Ne.symm hne)]
    · simp only [dictSet, if_neg h₀, dictLookup]
      by_cases hh : k₀ = j
      · simp [hh]
      · simp only [if_neg hh]
        exact ih

theorem dictLookup_dictUpdate_of_none {κ ν : Type} [DecidableEq κ]
    {e : PyDict κ ν} {k : κ} (d : PyDict κ ν)
    (h : dictLookup e k = none) : dictLookup (dictUpdate d e) k = dictLookup d k := by
  induction e generalizing d with
  | nil => rfl
  | cons p rest ih =>
    obtain ⟨k₁, v₁⟩ := p
    simp only [dictLookup] at h
    by_cases h₁ : k₁ = k
    · simp [h₁] at h
    · simp only [if_neg h₁] at h
      show dictLookup (dictUpdate (dictSet d k₁ v₁) rest) k = dictLookup d k
      rw [ih (dictSet d k₁ v₁) h, dictLookup_dictSet_ne _ _ (Ne.symm h₁)]

theorem dictLookup_dictUpdate_of_some {κ ν : Type} [DecidableEq κ]
    {e : PyDict κ ν} {k : κ} {v : ν} (d : PyDict κ ν)
    (hnd : (dictKeys e).Nodup) (h : dictLookup e k = some v) :
    dictLookup (dictUpdate d e) k = some v := by
  induction e generalizing d with
  | nil => simp [dictLookup] at h
  | cons p rest ih =>
    obtain ⟨k₁, v₁⟩ := p
    simp only [dictKeys, List.map_cons, List.nodup_cons] at hnd
    simp only [dictLookup] at h
    by_cases h₁ : k₁ = k
    · have hv : v₁ = v := by simpa [if_pos h₁] using h
      have hk₁ : k ∉ dictKeys rest := h₁ ▸ hnd.1
      show dictLookup (dictUpdate (dictSet d k₁ v₁) rest) k = some v
      rw [dictLookup_dictUpdate_of_none _ (dictLookup_eq_none hk₁), h₁,
        dictLookup_dictSet_self, hv]
    · simp only [if_neg h₁] at h
      exact ih (dictSet d k₁ v₁) hnd.2 h

theorem dictLookup_filterMap_eq_none {κ ν : Type} [DecidableEq κ]
    (g : κ → Option (κ × ν)) (l : List κ) (k : κ)
    (hg : ∀ a p, g a = some p → p.1 = a) (hk : k ∉ l) :
    dictLookup (l.filterMap g) k = none := by
  induction l with
  | nil => rfl
  | cons a rest ih =>
    have hka : k ≠ a := fun hh => hk (hh ▸ List.mem_cons_self _ _)
    have hkr : k ∉ rest := fun hh => hk (List.mem_cons_of_mem _ hh)
    rw [List.filterMap_cons]
    rcases hga : g a with _ | p
    · exact ih hkr
    · have hp : p.1 = a := hg a p hga
      obtain ⟨p₁, p₂⟩ := p
      simp only at hp
      subst hp
      simp only [dictLookup, if_neg (Ne.symm hka)]
      exact ih hkr

theorem dictLookup_filterMap_eq {κ ν : Type} [DecidableEq κ]
    (g : κ → Option (κ × ν)) (l : List κ) (k : κ)
    (hg : ∀ a p, g a = some p → p.1 = a) (hnd : l.Nodup) (hk : k ∈ l) :
    dictLookup (l.filterMap g) k = (g k).map Prod.snd := by
  induction l with
  | nil => simp at hk
  | cons a rest ih =>
    rw [List.nodup_cons] at hnd
    rw [List.filterMap_cons]
    rcases List.mem_cons.mp hk with h | h
    · subst h
      rcases hga : g k with _ | p
      · rw [dictLookup_filterMap_eq_none g rest k hg hnd.1]
        simp [hga]
      · have hp : p.1 = k := hg k p hga
        obtain ⟨p₁, p₂⟩ := p
        simp only at hp
        subst hp
        simp [dictLookup, hga]
    · have hka : a ≠ k := fun hh => hnd.1 (hh ▸ h)
      rcases hga : g a with _ | p
      · exact ih hnd.2 h
      · have hp : p.1 = a := hg a p hga
        obtain ⟨p₁, p₂⟩ := p
        simp only at hp
        subst hp
        simp only [dictLookup, if_neg hka]
        exact ih hnd.2 h

theorem chooseBestTy_fold_spec {Ty : Type} (sub : Ty → Ty → Bool)
    (hrefl : ∀ a, sub a a = true)
    (htrans : ∀ a b c, sub a b = true → sub b c = true → sub a c = true)
    (hanti : ∀ a b, sub a b = true → sub b a = true → a = b)
    (t : Ty) (keys : List Ty) :
    ∀ acc : Ty,
      sub (chooseBestTy sub acc t keys) acc = true ∧
      (∀ k ∈ keys, sub t k = true → sub k (chooseBestTy sub acc t keys) = true →
        k = chooseBestTy sub acc t keys) ∧
      (chooseBestTy sub acc t keys = acc ∨
        (chooseBestTy sub acc t keys ∈ keys ∧ sub t (chooseBestTy sub acc t keys) = true)) ∧
      ((∃ k ∈ keys, sub t k = true ∧ sub k acc = true) →
        (chooseBestTy sub acc t keys ∈ keys ∧ sub t (chooseBestTy sub acc t keys) = true)) := by
  induction keys with
  | nil =>
    intro acc
    refine ⟨hrefl acc, ?_, Or.inl rfl, ?_⟩
    · intro k hk
      simp at hk
    · rintro ⟨k, hk, -⟩
      simp at hk
  | cons k₀ rest ih =>
    intro acc
    have hstep : chooseBestTy sub acc t (k₀ :: rest) =
        chooseBestTy sub (if sub t k₀ && sub k₀ acc then k₀ else acc) t rest := rfl
    by_cases hc : sub t k₀ && sub k₀ acc
    · obtain ⟨hc₁, hc₂⟩ : sub t k₀ = true ∧ sub k₀ acc = true := by simpa using hc
      have hacc : (if sub t k₀ && sub k₀ acc then k₀ else acc) = k₀ := if_pos hc
      rw [hstep, hacc]
      obtain ⟨i₁, i₂, i₃, i₄⟩ := ih k₀
      refine ⟨htrans _ _ _ i₁ hc₂, ?_, ?_, ?_⟩
      · intro k hk hkt hkR
        rcases List.mem_cons.mp hk with h | h
        · subst h
          exact hanti _ _ hkR i₁
        · exact i₂ k h hkt hkR
      · rcases i₃ with h | h
        · exact Or.inr ⟨by rw [h]; exact List.mem_cons_self _ _, by rw [h]; exact hc₁⟩
        · exact Or.inr ⟨List.mem_cons_of_mem _ h.1, h.2⟩
      · intro _
        rcases i₃ with h | h
        · exact ⟨by rw [h]; exact List.mem_cons_self _ _, by rw [h]; exact hc₁⟩
        · exact ⟨List.mem_cons_of_mem _ h.1, h.2⟩
    · have hacc : (if sub t k₀ && sub k₀ acc then k₀ else acc) = acc := if_neg hc
      rw [hstep, hacc]
      obtain ⟨i₁, i₂, i₃, i₄⟩ := ih acc
      refine ⟨i₁, ?_, ?_, ?_⟩
      · intro k hk hkt hkR
        rcases List.mem_cons.mp hk with h | h
        · subst h
          exfalso
          have hsub : sub k acc = true := htrans _ _ _ hkR i₁
          exact hc (by rw [hkt, hsub]; rfl)
        · exact i₂ k h hkt hkR
      · rcases i₃ with h | h
        · exact Or.inl h
        · exact Or.inr ⟨List.mem_cons_of_mem _ h.1, h.2⟩
      · rintro ⟨k, hk, hkt, hka⟩
        rcases List.mem_cons.mp hk with h | h
        · subst h
          exact absurd (by rw [hkt, hka]; rfl) hc
        · have hi := i₄ ⟨k, h, hkt, hka⟩
          exact ⟨List.mem_cons_of_mem _ hi.1, hi.2⟩

theorem DataModel.implAction_key (m : DataModel) (a : String) (p : String × PyVal)
    (hp : m.implAction a = some p) : p.1 = a := by
  unfold DataModel.implAction at hp
  rcases hga : m.getAttr a with _ | f <;> rw [hga] at hp
  · exact absurd hp (by simp)
  · rw [Option.some_bind] at hp
    by_cases hc : f.isCallable
    · rw [if_pos hc] at hp
      cases hp
      rfl
    · rw [if_neg hc] at hp
      exact absurd hp (by simp)

theorem DataModel.getItem_eq (m : DataModel) (k : String) (hk : k ∈ allActions) :
    m.getItem k = (m.getAttr k).bind (fun f => if f.isCallable then some f else none) := by
  unfold DataModel.getItem DataModel.implActions
  rw [dictLookup_filterMap_eq _ _ _ m.implAction_key (by decide) hk]
  unfold DataModel.implAction
  rcases m.getAttr k with _ | f
  · rfl
  · rw [Option.some_bind, Option.some_bind]
    by_cases hc : f.isCallable <;> simp [hc]

theorem DataModel.getItem_eq_none (m : DataModel) (k : String) (hk : k ∉ allActions) :
    m.getItem k = none := by
  unfold DataModel.getItem DataModel.implActions
  exact dictLookup_filterMap_eq_none _ _ _ m.implAction_key hk

theorem DataModel.getAttr_setAttr_self (m : DataModel) (a : String) (v : PyVal)
    (ha : a ∈ allActions) : (m.setAttr a v).getAttr a = some v := by
  rcases (by simpa [allActions] using ha :
      a = "read" ∨ a = "write" ∨ a = "delete" ∨ a = "make") with h | h | h | h <;>
    subst h <;> simp [DataModel.setAttr, DataModel.getAttr]

theorem enterHooks_all_ok (l : List CtxHook) (st : ScopeState)
    (h : ∀ hk ∈ l, hk.setupOk = true) :
    (enterHooks l st).2 = true ∧ (enterHooks l st).1.cleanupRuns = st.cleanupRuns := by
  induction l generalizing st with
  | nil => exact ⟨rfl, rfl⟩
  | cons hk rest ih =>
    have hok : hk.setupOk = true := h hk (List.mem_cons_self _ _)
    simp only [enterHooks, if_pos hok]
    exact ih _ (fun g hg => h g (List.mem_cons_of_mem _ hg))

theorem enterHooks_append_ok (pre l : List CtxHook) (st : ScopeState)
    (h : ∀ hk ∈ pre, hk.setupOk = true) :
    enterHooks (pre ++ l) st = enterHooks l (enterHooks pre st).1 := by
  induction pre generalizing st with
  | nil => rfl
  | cons hk rest ih =>
    have hok : hk.setupOk = true := h hk (List.mem_cons_self _ _)
    simp only [List.cons_append, enterHooks, if_pos hok]
    exact ih _ (fun g hg => h g (List.mem_cons_of_mem _ hg))

/-- C1 (amended): the chosen handler is always registered for a minimal
(narrowest) applicable exception type: it applies to the error, and no
other applicable registered type is a proper subclass of it.  When no
registered type applies to the error, the original error object is
re-raised unchanged.  (When several incomparable applicable types are
minimal, the greedy scan does not always pick the first-registered one;
see the counterexample.) -/
theorem c1_error_handler_selects_minimal_applicable {Ty : Type} [DecidableEq Ty]
    (sub : Ty → Ty → Bool) (base : Ty) (err : PyError Ty) (handlers : PyDict Ty Nat)
    (hrefl : ∀ a, sub a a = true)
    (htrans : ∀ a b c, sub a b = true → sub b c = true → sub a c = true)
    (hanti : ∀ a b, sub a b = true → sub b a = true → a = b)
    (htop : ∀ a, sub a base = true) :
    (∀ h, ErrorHandler.chooseBestHandler sub base err handlers = .ok h →
      ∃ k ∈ dictKeys handlers, dictLookup handlers k = some h ∧ sub err.ty k = true ∧
        ∀ j ∈ dictKeys handlers, sub err.ty j = true → sub j k = true → j = k) ∧
    (∀ e, ErrorHandler.chooseBestHandler sub base err handlers = .error e →
      e = err ∧ ∀ k ∈ dictKeys handlers, sub err.ty k = false) := by
  obtain ⟨i₁, i₂, i₃, i₄⟩ := chooseBestTy_fold_spec sub hrefl htrans hanti err.ty
    (dictKeys handlers) base
  constructor
  · intro h heq
    unfold ErrorHandler.chooseBestHandler at heq
    rcases hF : dictLookup handlers (chooseBestTy sub base err.ty (dictKeys handlers)) with
      _ | v
    · rw [hF] at heq
      exact absurd heq (by simp)
    · rw [hF] at heq
      have hv : v = h := by simpa using heq
      subst hv
      refine ⟨chooseBestTy sub base err.ty (dictKeys handlers),
        mem_dictKeys_of_lookup hF, hF, ?_, i₂⟩
      rcases i₃ with h₃ | h₃
      · rw [h₃]
        exact htop _
      · exact h₃.2
  · intro e heq
    unfold ErrorHandler.chooseBestHandler at heq
    rcases hF : dictLookup handlers (chooseBestTy sub base err.ty (dictKeys handlers)) with
      _ | v
    · rw [hF] at heq
      have he : e = err := by simpa using heq.symm
      refine ⟨he, ?_⟩
      intro k hk
      by_contra hkapp
      have hkt : sub err.ty k = true := by
        cases hval : sub err.ty k
        · exact absurd hval hkapp
        · rfl
      have := i₄ ⟨k, hk, hkt, htop k⟩
      have hsome := dictLookup_isSome_of_mem this.1
      rw [hF] at hsome
      simp at hsome
    · rw [hF] at heq
      exact absurd heq (by simp)

/-- Counterexample to C1 as stated: with handlers registered on Z (1), M1
(2) and M2 (3) in that order and an error of the leaf type 4, both M1 and
M2 are minimal applicable registered types, so the claimed tie-break says
M1's handler (11, first registered); the code returns M2's handler (12),
because the earlier broader registration Z steers the greedy scan past M1. -/
theorem c1_tie_break_counterexample :
    ErrorHandler.chooseBestHandler sub5 0 ⟨4, 0⟩ [(1, 10), (2, 11), (3, 12)] = .ok 12 ∧
    specNarrowestFirst sub5 ⟨4, 0⟩ [(1, 10), (2, 11), (3, 12)] = .ok 11 ∧
    (12 : Nat) ≠ 11 :=
  ⟨rfl, rfl, by decide⟩

/-- Witness for C1: on the Base → Mid → Leaf hierarchy with handlers on
Base and Mid only, an error of type Leaf resolves to Mid's handler 22,
which is registered for a minimal applicable type. -/
theorem c1_witness :
    ((∀ a : Fin 4, subBM a a = true) ∧
     (∀ a b c : Fin 4, subBM a b = true → subBM b c = true → subBM a c = true) ∧
     (∀ a b : Fin 4, subBM a b = true → subBM b a = true → a = b) ∧
     (∀ a : Fin 4, subBM a 0 = true)) ∧
    (∃ k ∈ dictKeys bmHandlers, dictLookup bmHandlers k = some 22 ∧
      subBM 3 k = true ∧
      ∀ j ∈ dictKeys bmHandlers, subBM 3 j = true → subBM j k = true → j = k) :=
  ⟨⟨by decide, by decide, by decide, by decide⟩,
   (c1_error_handler_selects_minimal_applicable subBM 0 ⟨3, 5⟩ bmHandlers
     (by decide) (by decide) (by decide) (by decide)).1 22 rfl⟩

/-- C2 (code bug): resolution never reaches the default-handler or
first-registered logic that the claim describes: for every registry, every
designated default and every Accept header (absent, exactly */*, or
anything else), Formatter.choose_best_handler evaluates
ctx.request.get("Accept") first and raises AttributeError, because the
request class defines no get method. -/
theorem c2_formatter_resolution_raises_attribute_error
    (handlers : PyDict Mime Nat) (dflt : Option Mime)
    (accept : Option (List (Mime × Nat))) :
    Formatter.chooseBestHandler handlers dflt accept = .error (.attributeError "get") := rfl

/-- C3 (code bug): the with-Accept-header path of
Formatter.choose_best_handler, where the claimed wildcard fallback would
live, can never execute: for every registry and every parsed header —
*/* among its ranges or not — the AttributeError from
ctx.request.get("Accept") is raised first, so no fallback to the first
available handler ever happens. -/
theorem c3_formatter_wildcard_path_raises_attribute_error
    (handlers : PyDict Mime Nat) (dflt : Option Mime)
    (ranges : List (Mime × Nat)) :
    Formatter.chooseBestHandler handlers dflt (some ranges) =
      .error (.attributeError "get") := rfl

/-- C4: with no designated default, a request whose Content-Type media type
is not a registered key makes Parser.choose_best_handler raise
UnsupportedMediaType; the body is never handed to an arbitrary handler. -/
theorem c4_parser_unregistered_raises_unsupported_media_type
    (handlers : PyDict String Nat) (ct : String) (opts : PyDict String String)
    (h : ct ∉ dictKeys handlers) :
    Parser.chooseBestHandler handlers none ct opts = .error .unsupportedMediaType := by
  simp [Parser.chooseBestHandler, dictLookup_eq_none h]

/-- Witness for C4: text/xml against a registry holding only
application/json fails with UnsupportedMediaType. -/
theorem c4_witness :
    "text/xml" ∉ dictKeys [("application/json", 1)] ∧
    Parser.chooseBestHandler [("application/json", 1)] none "text/xml"
      [("charset", "utf-8")] = .error .unsupportedMediaType :=
  ⟨by decide,
   c4_parser_unregistered_raises_unsupported_media_type [("application/json", 1)]
     "text/xml" [("charset", "utf-8")] (by decide)⟩

/-- C5: in A.compose(B), every operation key present in A maps to A's own
handler (identical by reference, never B's), and every key absent from A
passes through to B's entry unchanged. -/
theorem c5_compose_override_precedence (A B : PyDict String Nat) (k : String)
    (hA : (dictKeys A).Nodup) :
    (∀ v, dictLookup A k = some v → dictLookup (AbstractDataModel.compose A B) k = some v) ∧
    (dictLookup A k = none → dictLookup (AbstractDataModel.compose A B) k = dictLookup B k) := by
  constructor
  · intro v hv
    exact dictLookup_dictUpdate_of_some B hA hv
  · intro hnone
    exact dictLookup_dictUpdate_of_none B hnone

/-- Witness for C5 at a concrete pair of models: read/write declared on A,
read/delete on B; the composite keeps A's read handler and B's delete. -/
theorem c5_witness :
    (dictKeys [("read", 1), ("write", 2)]).Nodup ∧
    dictLookup (AbstractDataModel.compose [("read", 1), ("write", 2)]
      [("read", 10), ("delete", 3)]) "read" = some 1 ∧
    dictLookup (AbstractDataModel.compose [("read", 1), ("write", 2)]
      [("read", 10), ("delete", 3)]) "delete" = some 3 :=
  ⟨by decide,
   (c5_compose_override_precedence [("read", 1), ("write", 2)]
     [("read", 10), ("delete", 3)] "read" (by decide)).1 1 (by decide),
   by
    have h := (c5_compose_override_precedence [("read", 1), ("write", 2)]
      [("read", 10), ("delete", 3)] "delete" (by decide)).2 (by decide)
    rw [h]
    decide⟩

/-- C6 (amended): DELETE with no delete operation and PUT with no write
operation fail with MethodNotAllowed listing the supported method set, on
resources and collections alike; but a POST to a Collection whose model
lacks make bypasses the method check and fails with KeyError (which the
default resource error handler surfaces as NotFound), not MethodNotAllowed. -/
theorem c6_method_not_allowed_for_missing_operations (model : PyDict String Nat)
    (input : Nat) :
    ("delete" ∉ dictKeys model → Resource.extractHandler "DELETE" model input =
      .error (.methodNotAllowed (Resource.getSupportedMethods (dictKeys model)))) ∧
    ("write" ∉ dictKeys model → Resource.extractHandler "PUT" model input =
      .error (.methodNotAllowed (Resource.getSupportedMethods (dictKeys model)))) ∧
    ("delete" ∉ dictKeys model → Collection.extractHandler "DELETE" model input =
      .error (.methodNotAllowed (Collection.getSupportedMethods (dictKeys model)))) ∧
    ("write" ∉ dictKeys model → Collection.extractHandler "PUT" model input =
      .error (.methodNotAllowed (Collection.getSupportedMethods (dictKeys model)))) ∧
    ("make" ∉ dictKeys model → Collection.extractHandler "POST" model input =
      .error (.keyError "make")) := by
  refine ⟨?_, ?_, ?_, ?_, ?_⟩
  · intro h
    have hsup : "DELETE" ∉ Resource.getSupportedMethods (dictKeys model) := by
      by_cases hw : "write" ∈ dictKeys model <;>
        simp [Resource.getSupportedMethods, h, hw]
    simp [Resource.extractHandler, Resource.extractCore, hsup]
  · intro h
    have hsup : "PUT" ∉ Resource.getSupportedMethods (dictKeys model) := by
      by_cases hd : "delete" ∈ dictKeys model <;>
        simp [Resource.getSupportedMethods, h, hd]
    simp [Resource.extractHandler, Resource.extractCore, hsup]
  · intro h
    have hsup : "DELETE" ∉ Collection.getSupportedMethods (dictKeys model) := by
      by_cases hw : "write" ∈ dictKeys model <;>
        by_cases hm : "make" ∈ dictKeys model <;>
          simp [Collection.getSupportedMethods, Resource.getSupportedMethods, h, hw, hm]
    simp [Collection.extractHandler, Resource.extractCore, hsup]
  · intro h
    have hsup : "PUT" ∉ Collection.getSupportedMethods (dictKeys model) := by
      by_cases hd : "delete" ∈ dictKeys model <;>
        by_cases hm : "make" ∈ dictKeys model <;>
          simp [Collection.getSupportedMethods, Resource.getSupportedMethods, h, hd, hm]
    simp [Collection.extractHandler, Resource.extractCore, hsup]
  · intro h
    simp [Collection.extractHandler, dictLookup_eq_none h]

/-- Counterexample to C6 as stated: a POST to a Collection whose composed
model has read but not make fails with KeyError for "make", not with
MethodNotAllowed listing the supported set. -/
theorem c6_collection_post_without_make_counterexample :
    Collection.extractHandler "POST" [("read", 1)] 9 = .error (.keyError "make") ∧
    ExtractErr.keyError "make" ≠
      .methodNotAllowed (Collection.getSupportedMethods (dictKeys [("read", 1)])) :=
  ⟨rfl, by decide⟩

/-- Witness for C6 at a read-only model: DELETE and PUT are refused with
MethodNotAllowed listing the supported set, on both resource kinds, and a
Collection POST fails with KeyError. -/
theorem c6_witness :
    ("delete" ∉ dictKeys [("read", 5)] ∧ "write" ∉ dictKeys [("read", 5)] ∧
     "make" ∉ dictKeys [("read", 5)]) ∧
    Resource.extractHandler "DELETE" [("read", 5)] 7 =
      .error (.methodNotAllowed (Resource.getSupportedMethods (dictKeys [("read", 5)]))) ∧
    Resource.extractHandler "PUT" [("read", 5)] 7 =
      .error (.methodNotAllowed (Resource.getSupportedMethods (dictKeys [("read", 5)]))) ∧
    Collection.extractHandler "POST" [("read", 5)] 7 = .error (.keyError "make") :=
  ⟨⟨by decide, by decide, by decide⟩,
   (c6_method_not_allowed_for_missing_operations [("read", 5)] 7).1 (by decide),
   (c6_method_not_allowed_for_missing_operations [("read", 5)] 7).2.1 (by decide),
   (c6_method_not_allowed_for_missing_operations [("read", 5)] 7).2.2.2.2 (by decide)⟩

/-- C7 (code bug): for every successful make result, the collection's POST
post-processing sets the response status to 201 and then raises NameError
for the unbound name `data` (resource.py line 319), so the Location header
is never computed and the successful result is turned into an error
instead of being returned. -/
theorem c7_collection_post_raises_name_error (build : PyDict String Nat → Option String)
    (bindArgs : PyDict String String) (ret : PyDict String Nat) (resp : RespState) :
    Collection.handleRequestPost build bindArgs ret resp =
      (resp.setdefaultStatus 201, .error (.nameError "data")) := rfl

/-- C8 (amended): when every context manager's setup succeeds, the scope
tears down fully however the body exits — normally or by raising — leaving
no readable ctx value and running every registered cleanup hook exactly
once; but when some context manager's setup raises, the scope is never
established: no cleanup hook runs at all and the ctx values registered
before the failure remain readable. -/
theorem c8_context_teardown (hooks : List CtxHook) (n : Nat) (body : Bool) :
    ((∀ hk ∈ hooks, hk.setupOk = true) →
      (App.runScope hooks n body).ctxVars = [] ∧
      (App.runScope hooks n body).cleanupRuns = List.replicate n 1) ∧
    (∀ pre hk post, hooks = pre ++ hk :: post → (∀ g ∈ pre, g.setupOk = true) →
      hk.setupOk = false →
      (App.runScope hooks n body).cleanupRuns = List.replicate n 0 ∧
      (App.runScope hooks n body).ctxVars =
        (enterHooks pre ⟨baseCtxVars, List.replicate n 0⟩).1.ctxVars) := by
  constructor
  · intro hall
    obtain ⟨h2, hruns⟩ := enterHooks_all_ok hooks ⟨baseCtxVars, List.replicate n 0⟩ hall
    unfold App.runScope
    rcases hep : enterHooks hooks ⟨baseCtxVars, List.replicate n 0⟩ with ⟨st1, b⟩
    rw [hep] at h2 hruns
    simp only at h2 hruns
    subst h2
    simp only [appCleanup, hruns, List.map_replicate]
    cases body <;> exact ⟨rfl, rfl⟩
  · intro pre hk post hsplit hpre hfail
    subst hsplit
    have hstep : enterHooks (pre ++ hk :: post) ⟨baseCtxVars, List.replicate n 0⟩ =
        ((enterHooks pre ⟨baseCtxVars, List.replicate n 0⟩).1, false) := by
      rw [enterHooks_append_ok pre (hk :: post) _ hpre]
      simp [enterHooks, hfail]
    unfold App.runScope
    rw [hstep]
    exact ⟨(enterHooks_all_ok pre _ hpre).2, rfl⟩

/-- Counterexample to C8 as stated: the first context manager yields 42
under the name meaning, the second raises during setup; afterwards the
single registered cleanup hook has run zero times — not exactly once — and
the value remains readable. -/
theorem c8_setup_failure_skips_cleanup :
    (App.runScope [⟨"meaning", true, some 42⟩, ⟨"boom", false, none⟩] 1 false).cleanupRuns =
      [0] ∧
    dictLookup (App.runScope [⟨"meaning", true, some 42⟩, ⟨"boom", false, none⟩] 1
      false).ctxVars "meaning" = some 42 :=
  ⟨rfl, rfl⟩

/-- Witness for C8: a single succeeding context manager, two cleanup
hooks, body raising — after the scope, no ctx value is readable and both
cleanup hooks ran exactly once. -/
theorem c8_witness :
    (∀ hk ∈ [(⟨"meaning", true, some 42⟩ : CtxHook)], hk.setupOk = true) ∧
    ((App.runScope [⟨"meaning", true, some 42⟩] 2 true).ctxVars = [] ∧
      (App.runScope [⟨"meaning", true, some 42⟩] 2 true).cleanupRuns =
        List.replicate 2 1) :=
  ⟨by decide,
   (c8_context_teardown [⟨"meaning", true, some 42⟩] 2 true).1 (by decide)⟩

/-- C9: constructing a filtered, sorted or limited view performs no
iteration of the backend (the access counter is unchanged), and two views
built by filtered with identical specifications over an unchanged backend
yield equal result sequences when iterated — both equal to the backend
records passing check_match. -/
theorem c9_lazy_views_and_filtered_idempotence (ds : List Record) (spec : FilterSpec)
    (count offset : Nat) (ss : List String) (rv : Bool) (n n' m m' : Nat) :
    (AbstractDataSet.filtered ds spec n).2 = n ∧
    (AbstractDataSet.limit ds count offset n).2 = n ∧
    (AbstractDataSet.sortedView ds ss rv n).2 = n ∧
    ((AbstractDataSet.filtered ds spec n).1.iter m).1 =
      ((AbstractDataSet.filtered ds spec n').1.iter m').1 ∧
    ((AbstractDataSet.filtered ds spec n).1.iter m).1 =
      ds.filter (fun r => checkMatch r spec) :=
  ⟨rfl, rfl, rfl, rfl, rfl⟩

/-- C10: a DataModel only ever holds operation keys from the closed set
all_actions; setting an item under any other key raises ValueError and a
non-callable value under a valid key raises TypeError, with the model
unchanged in both cases; a successful set makes the item retrievable as
exactly the stored function. -/
theorem c10_data_model_closed_key_invariant (m : DataModel) (a : String) (v : PyVal) :
    (a ∉ allActions → m.setItem a v = (m, some .valueError)) ∧
    (a ∈ allActions → v.isCallable = false → m.setItem a v = (m, some .typeError)) ∧
    (a ∈ allActions → v.isCallable = true →
      (m.setItem a v).2 = none ∧ ((m.setItem a v).1).getItem a = some v) ∧
    (∀ k, (m.getItem k).isSome = true → k ∈ allActions) := by
  refine ⟨?_, ?_, ?_, ?_⟩
  · intro h
    simp [DataModel.setItem, h]
  · intro ha hv
    simp [DataModel.setItem, ha, hv]
  · intro ha hv
    have hset : m.setItem a v = (m.setAttr a v, none) := by
      simp [DataModel.setItem, ha, hv]
    rw [hset]
    refine ⟨rfl, ?_⟩
    rw [DataModel.getItem_eq _ _ ha, DataModel.getAttr_setAttr_self m a v ha,
      Option.some_bind, if_pos hv]
  · intro k hk
    by_contra hmem
    rw [DataModel.getItem_eq_none m k hmem] at hk
    simp at hk

/-- Witness for C10: on a fresh model, a foreign key raises ValueError, a
non-callable raises TypeError (model unchanged both times), and a callable
stored under read is retrieved identically. -/
theorem c10_witness :
    ("proc" ∉ allActions ∧ "read" ∈ allActions ∧ PyVal.isCallable (.plain 2) = false ∧
      PyVal.isCallable (.callable 3) = true) ∧
    DataModel.empty.setItem "proc" (.callable 1) = (DataModel.empty, some .valueError) ∧
    DataModel.empty.setItem "read" (.plain 2) = (DataModel.empty, some .typeError) ∧
    ((DataModel.empty.setItem "read" (.callable 3)).1).getItem "read" =
      some (.callable 3) :=
  ⟨⟨by decide, by decide, rfl, rfl⟩,
   (c10_data_model_closed_key_invariant DataModel.empty "proc" (.callable 1)).1 (by decide),
   (c10_data_model_closed_key_invariant DataModel.empty "read" (.plain 2)).2.1
     (by decide) rfl,
   ((c10_data_model_closed_key_invariant DataModel.empty "read" (.callable 3)).2.2.1
     (by decide) rfl).2⟩

end Findig
